import Mathlib

/-!
Verification of the tool-calling conversation orchestrator
(ollamaApp.ts and mcpClient.ts of the mcp-course repository).

Shallow embedding conventions:
* TypeScript strings are Lean `String`; the JavaScript string operations
  `startsWith` and `substring` are modelled on the character list of the
  string (`jsStartsWith`, `jsSubstringFrom`).
* `JSON.parse` of the argument payload and the remote tool provider
  (the MCP SDK client reached through `MCPClient.executeTool`, including
  the `JSON.stringify` of its result) are external to the repository and
  are modelled as oracle fields of `OllamaAgent` (`parseJson`, `mcpExec`).
* The chat backend is external as well: one `fetch` of `/api/chat`
  produces one `BackendOutcome`; the line-delimited body is modelled as
  the list of per-line parse results (`none` encodes a line on which
  `JSON.parse` threw).
* The model responses consumed by the recursive turn-processing function
  `processFunctionCall` are supplied as an oracle list of already decoded
  `ChatResult` values, one entry per follow-up `agent.chat` call; the
  recursion in the source is bounded here by that list, which also makes
  the function total.
-/

/-- Roles of conversation messages (enum MessageRole of ollamaApp.ts). -/
inductive MessageRole where
  | system
  | user
  | assistant
  | tool
deriving DecidableEq, Repr, BEq

/-- Arguments of a tool call: either a raw text-encoded object or an
already structured mapping (string | Record of ollamaApp.ts). The values
of a structured mapping are kept abstract as strings; no code under
verification inspects them. -/
inductive ArgsVal where
  | raw (s : String)
  | obj (m : List (String × String))
deriving DecidableEq, Repr, BEq

/-- Payload of one tool call (interface ToolCall, field function). -/
structure FuncSpec where
  name : String
  arguments : ArgsVal
deriving DecidableEq, Repr, BEq

/-- One tool invocation requested by the model (interface ToolCall). -/
structure ToolCall where
  id : String
  function : FuncSpec
deriving DecidableEq, Repr, BEq

/-- One conversation message (interface MessageType). Optional fields of
the TypeScript interface are `Option`; `content : string | null` is
`Option String` as well, with `none` for null or absent. -/
structure MessageType where
  role : MessageRole
  content : Option String
  tool_calls : Option (List ToolCall)
  tool_call_id : Option String
  name : Option String
deriving DecidableEq, Repr, BEq

/-- JSON-schema payloads advertised for a tool; kept abstract except for
the default object schema that getAllTools substitutes. -/
inductive SchemaJson where
  | objectType
  | other (tag : String)
deriving DecidableEq, Repr, BEq

/-- Field function of interface ToolDefinition. -/
structure ToolFunctionDef where
  name : String
  description : String
  parameters : SchemaJson
deriving DecidableEq, Repr, BEq

/-- One tool descriptor advertised to the model (interface ToolDefinition). -/
structure ToolDefinition where
  type : String
  function : ToolFunctionDef
deriving DecidableEq, Repr, BEq

/-- One tool descriptor as delivered by the MCP server. description and
inputSchema may be absent. -/
structure McpTool where
  name : String
  description : Option String
  inputSchema : Option SchemaJson
deriving DecidableEq, Repr, BEq

/-- Result of MCPClient.listTools: a record with a tools field. -/
structure McpToolsList where
  tools : List McpTool
deriving DecidableEq, Repr, BEq

/-- Decoded outcome of one chat exchange: plain text or the first tool
call of the first line that carried a non-empty tool_calls list. This is
the string | function_call union returned by OllamaAPIClient.chat. -/
inductive ChatResult where
  | text (s : String)
  | functionCall (fc : ToolCall)
deriving DecidableEq, Repr, BEq

/-- Message part of one parsed response line of the Ollama chat API. -/
structure RespMessage where
  content : Option String
  tool_calls : Option (List ToolCall)
deriving DecidableEq, Repr, BEq

/-- One parsed response line. -/
structure RespJson where
  message : Option RespMessage
deriving DecidableEq, Repr, BEq

/-- JavaScript startsWith, modelled on the character list. -/
def jsStartsWith (s p : String) : Bool :=
  p.data.isPrefixOf s.data

/-- JavaScript substring(n), modelled on the character list. -/
def jsSubstringFrom (s : String) (n : Nat) : String :=
  ⟨s.data.drop n⟩

/-- JSON string escaping of one character (backslash and quote). -/
def jsonEscapeChar (c : Char) : String :=
  if c = '"' then "\\\"" else if c = '\\' then "\\\\" else String.singleton c

/-- JSON.stringify of a string value: quoted and escaped. -/
def jsonStringifyString (s : String) : String :=
  "\"" ++ String.join (s.data.map jsonEscapeChar) ++ "\""

/-- Agent environment: the cached remote catalog plus the two external
facilities used by the dispatch path. mcpExec models
MCPClient.executeTool together with the JSON.stringify applied to its
result by executeFunction; an error value models a thrown exception,
carrying the message of the Error object. parseJson models JSON.parse
restricted to object results, with none for a thrown parse error. -/
structure OllamaAgent where
  toolsMCP : Option McpToolsList
  mcpExec : String → List (String × String) → Except String String
  parseJson : String → Option (List (String × String))

namespace OllamaAPIClient

/-- Loop body of OllamaAPIClient._processResponse: scan the parsed lines
in order, return the first tool call of the first line whose message has
a non-empty tool_calls list, otherwise accumulate the truthy content
fragments into fullResponse. A `none` line is a line on which JSON.parse
threw: it is logged and skipped. -/
def processResponseLoop (fullResponse : String) :
    List (Option RespJson) → ChatResult
  | [] => ChatResult.text fullResponse
  | line :: rest =>
    match line with
    | none => processResponseLoop fullResponse rest
    | some respJson =>
      match respJson.message with
      | none => processResponseLoop fullResponse rest
      | some msg =>
        match msg.tool_calls with
        | some (functionCall :: _) => ChatResult.functionCall functionCall
        | some [] =>
          match msg.content with
          | some c =>
            processResponseLoop
              (if c = "" then fullResponse else fullResponse ++ c) rest
          | none => processResponseLoop fullResponse rest
        | none =>
          match msg.content with
          | some c =>
            processResponseLoop
              (if c = "" then fullResponse else fullResponse ++ c) rest
          | none => processResponseLoop fullResponse rest

/-- OllamaAPIClient._processResponse on the parsed response lines. -/
def processResponse (lines : List (Option RespJson)) : ChatResult :=
  processResponseLoop "" lines

/-- Outcome of the single fetch issued by OllamaAPIClient.chat. -/
inductive BackendOutcome where
  | netError
  | httpResponse (status : Nat) (lines : List (Option RespJson))

/-- OllamaAPIClient.chat: a thrown network error or a non-200 status is
logged and the call returns the empty string; a 200 response body is
decoded by _processResponse. Exactly one fetch is issued per call, hence
the single BackendOutcome argument. -/
def chat (outcome : BackendOutcome) : ChatResult :=
  match outcome with
  | BackendOutcome.netError => ChatResult.text ""
  | BackendOutcome.httpResponse status lines =>
    if status ≠ 200 then ChatResult.text ""
    else processResponse lines

end OllamaAPIClient

namespace ToolManager

/-- ToolManager.getAllTools: the built-in tools followed by the MCP
tools converted to the Ollama tool format, each under the name
mcp_ plus the original name, with the description and parameters
fallbacks of the source. -/
def getAllTools (builtInTools : List ToolDefinition)
    (mcpTools : Option McpToolsList) : List ToolDefinition :=
  builtInTools ++
    (match mcpTools with
     | some ts =>
       ts.tools.map (fun mcpTool =>
         { type := "function"
           function :=
             { name := "mcp_" ++ mcpTool.name
               description :=
                 match mcpTool.description with
                 | some d => if d = "" then "MCP tool: " ++ mcpTool.name else d
                 | none => "MCP tool: " ++ mcpTool.name
               parameters :=
                 match mcpTool.inputSchema with
                 | some sch => sch
                 | none => SchemaJson.objectType } })
     | none => [])

end ToolManager

namespace OllamaAgent

/-- OllamaAgent.executeMcpTool: throws when the MCP client is not
connected or the tool catalog was never obtained (the mcpClient field is
assigned in the constructor and never cleared, so the toolsMCP check is
the live one); otherwise forwards to MCPClient.executeTool, whose own
catch logs and rethrows. -/
def executeMcpTool (agent : OllamaAgent) (toolName : String)
    (args : List (String × String)) : Except String String :=
  match agent.toolsMCP with
  | none => Except.error "MCP Client not connected or tools not available"
  | some _ => agent.mcpExec toolName args

end OllamaAgent

/-- executeFunction of ollamaApp.ts: a name carrying the mcp_ remote
origin marker is stripped of its first four characters and routed to the
gateway, a thrown gateway error being captured as an error-describing
result string (the TypeScript template interpolation of a thrown Error
object renders it as Error: followed by the message); every other name
yields the textual not-implemented result. -/
def executeFunction (agent : OllamaAgent) (functionName : String)
    (functionArgs : List (String × String)) : String :=
  if jsStartsWith functionName "mcp_" then
    let actualToolName := jsSubstringFrom functionName 4
    match agent.executeMcpTool actualToolName functionArgs with
    | Except.ok result => result
    | Except.error e =>
      "Error ejecutando la herramienta MCP " ++ actualToolName ++ ": Error: " ++ e
  else
    "Función " ++ functionName ++ " no implementada"

/-- Argument normalization at the start of processFunctionCall: a
structured mapping is used as is; a raw string goes through JSON.parse,
a parse failure leaving the initial empty mapping. -/
def normalizeArguments (agent : OllamaAgent) : ArgsVal → List (String × String)
  | ArgsVal.obj m => m
  | ArgsVal.raw s =>
    match agent.parseJson s with
    | some m => m
    | none => []

/-- Argument re-encoding used when recording the assistant invocation
message: a non-object payload is JSON.stringify-ed, an object payload is
stored unchanged. -/
def reencodeArguments : ArgsVal → ArgsVal
  | ArgsVal.raw s => ArgsVal.raw (jsonStringifyString s)
  | ArgsVal.obj m => ArgsVal.obj m

/-- processFunctionCall of ollamaApp.ts. One call normalizes the
arguments, synthesizes the correlation id call_ plus the current history
length, executes the function, appends the assistant invocation message
and the tool result message, and consults the model again; a further
function call recurses, a text answer is appended as the final assistant
message. The oracle list supplies the successive results of the
follow-up agent.chat calls and bounds the recursion; the null-result
fallback of the source is unreachable here because executeFunction
always returns a string. -/
def processFunctionCall (agent : OllamaAgent) :
    ToolCall → List MessageType → List ChatResult → List MessageType
  | fc, messages, oracle =>
    let functionName := fc.function.name
    let functionArgs := normalizeArguments agent fc.function.arguments
    let functionCallId := "call_" ++ Nat.repr messages.length
    let functionResult := executeFunction agent functionName functionArgs
    let messages2 := messages ++
      [{ role := MessageRole.assistant
         content := none
         tool_calls := some [{ id := functionCallId
                               function := { name := functionName
                                             arguments :=
                                               reencodeArguments fc.function.arguments } }]
         tool_call_id := none
         name := none },
       { role := MessageRole.tool
         content := some functionResult
         tool_calls := none
         tool_call_id := some functionCallId
         name := some functionName }]
    match oracle with
    | [] => messages2
    | ChatResult.functionCall fc2 :: rest =>
      processFunctionCall agent fc2 messages2 rest
    | ChatResult.text s :: _ =>
      messages2 ++
        [{ role := MessageRole.assistant
           content := some s
           tool_calls := none
           tool_call_id := none
           name := none }]

/-- JavaScript truthiness of the chat result at the top of the
interactive loop: an object is truthy, a string is truthy when
non-empty. -/
def chatResultTruthy : ChatResult → Bool
  | ChatResult.text s => s ≠ ""
  | ChatResult.functionCall _ => true

/-- Outcome of one iteration of the interactive loop. -/
inductive TurnOutcome where
  | answered
  | toolTurn
  | noResponse
deriving DecidableEq, Repr

/-- One iteration of the interactiveChat while loop after the user typed
a message that is not an exit command: the user message is appended, one
chat exchange is performed (its decoded result is the response
argument), then a falsy response is reported as no response obtained
with nothing appended, a function call is handed to processFunctionCall,
and a truthy text is printed and appended as an assistant message. -/
def interactiveTurnStep (agent : OllamaAgent) (messages : List MessageType)
    (userMessage : String) (response : ChatResult)
    (oracle : List ChatResult) : List MessageType × TurnOutcome :=
  let messages := messages ++
    [{ role := MessageRole.user
       content := some userMessage
       tool_calls := none
       tool_call_id := none
       name := none }]
  if chatResultTruthy response then
    match response with
    | ChatResult.functionCall fc =>
      (processFunctionCall agent fc messages oracle, TurnOutcome.toolTurn)
    | ChatResult.text s =>
      (messages ++
        [{ role := MessageRole.assistant
           content := some s
           tool_calls := none
           tool_call_id := none
           name := none }], TurnOutcome.answered)
  else (messages, TurnOutcome.noResponse)

/-- External behavior reached during agent setup: whether the Ollama
reachability check succeeds, the result of the MCP SDK handshake
performed inside MCPClient.connect, the result of closing the SDK
client inside MCPClient.disconnect, and the result of the listTools
round trip. Error values model thrown exceptions. -/
structure GatewayEnv where
  ollamaOk : Bool
  connectOp : Except String Unit
  closeOp : Except String Unit
  listToolsOp : Except String McpToolsList

/-- Nullable client and transport fields of MCPClient: true models a
non-null reference. -/
structure MCPClientState where
  client : Bool
  transport : Bool
deriving DecidableEq, Repr

/-- State of a freshly constructed MCPClient: both fields null. -/
def disconnectedState : MCPClientState := ⟨false, false⟩

namespace MCPClient

/-- MCPClient.disconnect: when a client is present it is closed and both
fields are nulled; a throw from close is caught and logged, leaving the
fields as they were (the assignments after the throwing await are
skipped). With no client present only the transport field is nulled.
Never throws past its boundary. -/
def disconnect (env : GatewayEnv) (st : MCPClientState) : MCPClientState :=
  if st.client then
    match env.closeOp with
    | Except.ok _ => ⟨false, false⟩
    | Except.error _ => st
  else ⟨st.client, false⟩

/-- MCPClient.connect: constructs the transport and the client, then
performs the SDK handshake; success returns true, a thrown handshake
error is caught, disconnect is run to roll the fields back, and false is
returned. Never throws past its boundary. -/
def connect (env : GatewayEnv) (_st : MCPClientState) :
    Bool × MCPClientState :=
  let st1 : MCPClientState := ⟨true, true⟩
  match env.connectOp with
  | Except.ok _ => (true, st1)
  | Except.error _ => (false, disconnect env st1)

end MCPClient

/-- Result of OllamaAgent.setup: either the process exits because Ollama
is unreachable, or the session proceeds with the cached remote catalog
(none when the MCP connection failed or listTools threw) and the gateway
state. -/
inductive SetupResult where
  | exited (code : Nat)
  | ready (toolsMCP : Option McpToolsList) (gw : MCPClientState)
deriving DecidableEq, Repr

/-- OllamaAgent.setup: an unreachable Ollama backend exits the process
with code 1; otherwise MCPClient.connect is attempted on a freshly
constructed client, a successful connection caches listTools (a thrown
listTools error is caught, leaving the catalog absent), and a failed
connection leaves the catalog absent; in every non-exit case the session
continues. -/
def setup (env : GatewayEnv) : SetupResult :=
  if env.ollamaOk then
    let conn := MCPClient.connect env disconnectedState
    if conn.1 then
      match env.listToolsOp with
      | Except.ok ts => SetupResult.ready (some ts) conn.2
      | Except.error _ => SetupResult.ready none conn.2
    else SetupResult.ready none conn.2
  else SetupResult.exited 1

/-- Specification-side reading of one response line: the first
invocation of the line when its message carries a non-empty
tool-invocation list. -/
def lineInv (line : Option RespJson) : Option ToolCall :=
  match line with
  | some r =>
    match r.message with
    | some m =>
      match m.tool_calls with
      | some (fc :: _) => some fc
      | some [] => none
      | none => none
    | none => none
  | none => none

/-- Specification-side reading of one response line: its textual content
fragment, empty for an unparseable line or an absent content field. -/
def specLineContent (line : Option RespJson) : String :=
  match line with
  | some r =>
    match r.message with
    | some m =>
      match m.content with
      | some c => c
      | none => ""
    | none => ""
  | none => ""

/-- Specification-side in-order concatenation of every content
fragment. -/
def specConcatContent : List (Option RespJson) → String
  | [] => ""
  | l :: rest => specLineContent l ++ specConcatContent rest

/-- Pairing check between an assistant message and a tool message: the
assistant role carries a tool_calls list holding the tool_call_id of the
tool message. -/
def isPairLink (a : MessageType) (t : MessageType) : Bool :=
  (a.role == MessageRole.assistant) &&
    (match a.tool_calls, t.tool_call_id with
     | some tcs, some id => tcs.any (fun tc => tc.id == id)
     | _, _ => false)

/-- Local pairing condition at index i of a history: a tool-role message
there is immediately preceded by an assistant message whose tool_calls
list carries its tool_call_id, and a message carrying a tool_calls list
there carries exactly one invocation and is immediately followed by the
one tool-role message answering it. -/
def msgOK (msgs : List MessageType) (i : Nat) : Bool :=
  match msgs[i]? with
  | none => true
  | some m =>
    (if m.role == MessageRole.tool then
       decide (0 < i) &&
         (match msgs[i-1]? with
          | some a => isPairLink a m
          | none => false)
     else true) &&
    (match m.tool_calls with
     | some tcs =>
       (tcs.length == 1) &&
         (match msgs[i+1]? with
          | some t => (t.role == MessageRole.tool) && isPairLink m t
          | none => false)
     | none => true)

/-- Invariant of claim C1 over a whole history. -/
def toolPairingInv (msgs : List MessageType) : Bool :=
  (List.range msgs.length).all (fun i => msgOK msgs i)

/-- Correlation ids carried by the tool-role messages of a history, in
order. -/
def toolIds (msgs : List MessageType) : List String :=
  msgs.filterMap (fun m =>
    if m.role == MessageRole.tool then m.tool_call_id else none)

/-- History lengths at the successive correlation-id synthesis points of
one processFunctionCall run that starts with history length L and
consumes the given oracle: the first id is synthesized at length L, each
recursion step first appends two messages. -/
def genNums (L : Nat) : List ChatResult → List Nat
  | [] => [L]
  | ChatResult.functionCall _ :: rest => L :: genNums (L + 2) rest
  | ChatResult.text _ :: _ => [L]

/-- Rendering of a synthesized correlation id from the history length at
its synthesis point. -/
def mkCallId (k : Nat) : String := "call_" ++ Nat.repr k

/-- Reference rendering of the decimal digits of a natural number, most
significant first; used to reason about the Nat.repr rendering inside
the synthesized correlation ids. -/
def decDigits (n : Nat) : List Char :=
  if _h : n < 10 then [Nat.digitChar n]
  else decDigits (n / 10) ++ [Nat.digitChar (n % 10)]
decreasing_by
  exact Nat.div_lt_self (by omega) (by omega)

/-- Decimal value of a digit-character list, used as a left inverse of
decDigits. -/
def decValue (l : List Char) : Nat :=
  l.foldl (fun a c => a * 10 + (c.toNat - 48)) 0

/-- Assistant message recording one invocation, as pushed by
processFunctionCall. -/
def assistantInvMessage (cid : String) (fc : ToolCall) : MessageType :=
  { role := MessageRole.assistant
    content := none
    tool_calls := some [{ id := cid
                          function := { name := fc.function.name
                                        arguments := reencodeArguments fc.function.arguments } }]
    tool_call_id := none
    name := none }

/-- Tool-role message recording one result, as pushed by
processFunctionCall. -/
def toolResultMessage (cid : String) (fc : ToolCall) (result : String) :
    MessageType :=
  { role := MessageRole.tool
    content := some result
    tool_calls := none
    tool_call_id := some cid
    name := some fc.function.name }

/-- Plain assistant message holding a text answer. -/
def assistantTextMessage (s : String) : MessageType :=
  { role := MessageRole.assistant
    content := some s
    tool_calls := none
    tool_call_id := none
    name := none }

/-- Sample agent in degraded mode: no cached remote catalog. -/
def sampleAgentDisconnected : OllamaAgent :=
  ⟨none, fun _ _ => Except.ok "", fun _ => none⟩

/-- Sample agent with a cached remote catalog and a gateway that answers
7 to every invocation. -/
def sampleAgentConnected : OllamaAgent :=
  ⟨some ⟨[⟨"lcm", none, none⟩]⟩, fun _ _ => Except.ok "7", fun _ => none⟩

/-- Sample invocation of an unresolved tool name. -/
def fcGhost : ToolCall := ⟨"id0", ⟨"ghost", ArgsVal.obj []⟩⟩

/-- Sample seeded system message. -/
def sysMessage : MessageType :=
  ⟨MessageRole.system, some "Eres un agente", none, none, none⟩

/-- Sample user message. -/
def userMessage : MessageType :=
  ⟨MessageRole.user, some "hola", none, none, none⟩

/-- Sample external environment in which the MCP handshake throws and
closing the freshly built client succeeds. -/
def sampleEnvConnectFail : GatewayEnv :=
  ⟨true, Except.error "spawn failed", Except.ok (), Except.error "not connected"⟩

/-- Unfolding of processFunctionCall when the follow-up chat returns a
text answer. -/
theorem processFunctionCall_text_eq (agent : OllamaAgent) (fc : ToolCall)
    (msgs : List MessageType) (s : String) (rest : List ChatResult) :
    processFunctionCall agent fc msgs (ChatResult.text s :: rest) =
      msgs ++
        [assistantInvMessage (mkCallId msgs.length) fc,
         toolResultMessage (mkCallId msgs.length) fc
           (executeFunction agent fc.function.name
             (normalizeArguments agent fc.function.arguments)),
         assistantTextMessage s] := by
  show (msgs ++ [_, _]) ++ [_] = _
  rw [List.append_assoc]
  rfl

/-- Unfolding of processFunctionCall when the oracle is exhausted. -/
theorem processFunctionCall_nil_eq (agent : OllamaAgent) (fc : ToolCall)
    (msgs : List MessageType) :
    processFunctionCall agent fc msgs [] =
      msgs ++
        [assistantInvMessage (mkCallId msgs.length) fc,
         toolResultMessage (mkCallId msgs.length) fc
           (executeFunction agent fc.function.name
             (normalizeArguments agent fc.function.arguments))] := rfl

/-- Unfolding of processFunctionCall when the follow-up chat returns a
further function call. -/
theorem processFunctionCall_fnCall_eq (agent : OllamaAgent) (fc fc2 : ToolCall)
    (msgs : List MessageType) (rest : List ChatResult) :
    processFunctionCall agent fc msgs (ChatResult.functionCall fc2 :: rest) =
      processFunctionCall agent fc2
        (msgs ++
          [assistantInvMessage (mkCallId msgs.length) fc,
           toolResultMessage (mkCallId msgs.length) fc
             (executeFunction agent fc.function.name
               (normalizeArguments agent fc.function.arguments))]) rest := rfl

/-- Characterization of the _processResponse scan loop: the first line
carrying a non-empty tool-invocation list wins, otherwise the content
fragments are concatenated after the accumulator. -/
theorem processResponseLoop_eq (lines : List (Option RespJson)) :
    ∀ acc, OllamaAPIClient.processResponseLoop acc lines =
      (match List.findSome? lineInv lines with
       | some fc => ChatResult.functionCall fc
       | none => ChatResult.text (acc ++ specConcatContent lines)) := by
  induction lines with
  | nil =>
    intro acc
    simp [OllamaAPIClient.processResponseLoop, specConcatContent,
      String.append_empty]
  | cons l rest ih =>
    intro acc
    rw [List.findSome?_cons]
    cases l with
    | none =>
      simp only [OllamaAPIClient.processResponseLoop, lineInv,
        specConcatContent, specLineContent, ih, String.empty_append]
    | some r =>
      obtain ⟨message⟩ := r
      cases message with
      | none =>
        simp only [OllamaAPIClient.processResponseLoop, lineInv,
          specConcatContent, specLineContent, ih, String.empty_append]
      | some m =>
        obtain ⟨content, tool_calls⟩ := m
        match tool_calls with
        | some (fc :: tl) =>
          simp [OllamaAPIClient.processResponseLoop, lineInv]
        | some [] =>
          cases content with
          | none =>
            simp only [OllamaAPIClient.processResponseLoop, lineInv,
              specConcatContent, specLineContent, ih, String.empty_append]
          | some c =>
            by_cases hc : c = ""
            · subst hc
              simp only [OllamaAPIClient.processResponseLoop, lineInv,
                specConcatContent, specLineContent, ih, if_pos rfl, if_true,
                String.empty_append]
            · simp only [OllamaAPIClient.processResponseLoop, lineInv,
                specConcatContent, specLineContent, ih, if_neg hc,
                String.append_assoc]
        | none =>
          cases content with
          | none =>
            simp only [OllamaAPIClient.processResponseLoop, lineInv,
              specConcatContent, specLineContent, ih, String.empty_append]
          | some c =>
            by_cases hc : c = ""
            · subst hc
              simp only [OllamaAPIClient.processResponseLoop, lineInv,
                specConcatContent, specLineContent, ih, if_pos rfl, if_true,
                String.empty_append]
            · simp only [OllamaAPIClient.processResponseLoop, lineInv,
                specConcatContent, specLineContent, ih, if_neg hc,
                String.append_assoc]

/-- Auxiliary: a name formed by putting mcp_ in front carries the remote
origin marker. -/
theorem jsStartsWith_mcp_append (n : String) :
    jsStartsWith ("mcp_" ++ n) "mcp_" = true := by
  rw [jsStartsWith, String.data_append]
  exact List.isPrefixOf_iff_prefix.mpr (List.prefix_append _ _)

/-- Auxiliary: stripping the first four characters of mcp_ plus a name
recovers exactly the name. -/
theorem jsSubstringFrom_mcp_append (n : String) :
    jsSubstringFrom ("mcp_" ++ n) 4 = n := rfl

/-- C3: for every line-delimited backend response, the decoder returns,
as an invocation result, only the first invocation of the first line
whose message carries a non-empty tool-invocation list, ignoring all
content of other lines; if no such line exists, it returns a text result
equal to the in-order concatenation of the content fragment of every
successfully parsed line. -/
theorem claim_C3_decoder (lines : List (Option RespJson)) :
    OllamaAPIClient.processResponse lines =
      (match List.findSome? lineInv lines with
       | some fc => ChatResult.functionCall fc
       | none => ChatResult.text (specConcatContent lines)) := by
  rw [OllamaAPIClient.processResponse, processResponseLoop_eq]
  cases List.findSome? lineInv lines with
  | none => simp [String.empty_append]
  | some fc => rfl

/-- C5: the chat transport never raises past its boundary: a non-success
HTTP status or a thrown network error makes the single call return the
empty text result (the one fetch per call is structural: chat consumes
exactly one BackendOutcome), and a line that fails to parse is skipped
while decoding continues with the remaining lines. -/
theorem claim_C5_transport_never_raises :
    (∀ (status : Nat) (lines : List (Option RespJson)), status ≠ 200 →
      OllamaAPIClient.chat (OllamaAPIClient.BackendOutcome.httpResponse status lines) =
        ChatResult.text "") ∧
    OllamaAPIClient.chat OllamaAPIClient.BackendOutcome.netError = ChatResult.text "" ∧
    (∀ (acc : String) (rest : List (Option RespJson)),
      OllamaAPIClient.processResponseLoop acc (none :: rest) =
        OllamaAPIClient.processResponseLoop acc rest) := by
  refine ⟨fun status lines h => ?_, rfl, fun acc rest => rfl⟩
  simp [OllamaAPIClient.chat, h]

/-- C5 witness: a 500 status with one unparseable line yields the empty
text result. -/
theorem claim_C5_witness :
    OllamaAPIClient.chat (OllamaAPIClient.BackendOutcome.httpResponse 500 [none]) =
      ChatResult.text "" :=
  claim_C5_transport_never_raises.1 500 [none] (by decide)

/-- C2 counterexample: the remote descriptor named lcm enters the unified
catalog as mcp_lcm, not as remote_lcm, so the claimed prefixed name
remote_ plus the original name is not advertised. -/
theorem claim_C2_counterexample :
    (ToolManager.getAllTools [] (some ⟨[⟨"lcm", none, none⟩]⟩)).map
        (fun d => d.function.name) = ["mcp_lcm"] ∧
      "remote_lcm" ∉
        (ToolManager.getAllTools [] (some ⟨[⟨"lcm", none, none⟩]⟩)).map
          (fun d => d.function.name) := by
  refine ⟨rfl, ?_⟩
  decide

/-- C2 amended: for every remote tool descriptor with name n, catalog
merge advertises it under the prefixed name mcp_ plus n; dispatch on a
name of the form mcp_ plus n strips the prefix and invokes the gateway
executor with exactly n; and a name without the prefix never reaches the
gateway, yielding the not-implemented result whatever the gateway would
answer — the prefix is the sole mechanism distinguishing local from
remote dispatch. -/
theorem claim_C2_amended :
    (∀ (builtIn : List ToolDefinition) (mts : McpToolsList) (t : McpTool),
        t ∈ mts.tools →
        ("mcp_" ++ t.name) ∈
          (ToolManager.getAllTools builtIn (some mts)).map
            (fun d => d.function.name)) ∧
    (∀ (agent : OllamaAgent) (n : String) (args : List (String × String)),
        executeFunction agent ("mcp_" ++ n) args =
          (match agent.executeMcpTool n args with
           | Except.ok r => r
           | Except.error e =>
             "Error ejecutando la herramienta MCP " ++ n ++ ": Error: " ++ e)) ∧
    (∀ (agent : OllamaAgent) (name : String) (args : List (String × String)),
        jsStartsWith name "mcp_" = false →
        executeFunction agent name args =
          "Función " ++ name ++ " no implementada") := by
  refine ⟨fun builtIn mts t ht => ?_, fun agent n args => ?_, fun agent name args h => ?_⟩
  · rw [ToolManager.getAllTools, List.map_append, List.map_map]
    exact List.mem_append_right _ (List.mem_map.mpr ⟨t, ht, rfl⟩)
  · rw [executeFunction, if_pos (jsStartsWith_mcp_append n),
      jsSubstringFrom_mcp_append]
  · rw [executeFunction, if_neg ?_]
    rw [h]
    exact Bool.false_ne_true

/-- C2 amended witness: the descriptor lcm is advertised as mcp_lcm, a
dispatch on mcp_lcm reaches the gateway with the name lcm, and the
unprefixed name ghost is answered by the not-implemented text. -/
theorem claim_C2_amended_witness :
    ("mcp_" ++ "lcm") ∈
      (ToolManager.getAllTools [] (some ⟨[⟨"lcm", none, none⟩]⟩)).map
        (fun d => d.function.name) ∧
    executeFunction sampleAgentConnected ("mcp_" ++ "lcm") [] = "7" ∧
    executeFunction sampleAgentConnected "ghost" [] =
      "Función " ++ "ghost" ++ " no implementada" := by
  refine ⟨claim_C2_amended.1 [] ⟨[⟨"lcm", none, none⟩]⟩ ⟨"lcm", none, none⟩ (List.mem_cons_self _ _),
    (claim_C2_amended.2.1 sampleAgentConnected "lcm" []).trans rfl,
    claim_C2_amended.2.2 sampleAgentConnected "ghost" [] (by decide)⟩

/-- C4: in a turn where the model requests one tool invocation and the
follow-up chat returns text, turn-processing appends exactly three
messages in order — the assistant message carrying the single invocation
with its id, name and re-encoded arguments, the tool-role message
carrying the result text under the matching tool_call_id and name, and
the final assistant message with the returned text — so a history of two
entries grows to exactly five entries. -/
theorem claim_C4_three_appends (agent : OllamaAgent) (fc : ToolCall)
    (h0 h1 : MessageType) (t : String) (rest : List ChatResult) :
    processFunctionCall agent fc [h0, h1] (ChatResult.text t :: rest) =
      [h0, h1,
       assistantInvMessage (mkCallId 2) fc,
       toolResultMessage (mkCallId 2) fc
         (executeFunction agent fc.function.name
           (normalizeArguments agent fc.function.arguments)),
       assistantTextMessage t] ∧
    (processFunctionCall agent fc [h0, h1] (ChatResult.text t :: rest)).length = 5 := by
  have h := processFunctionCall_text_eq agent fc [h0, h1] t rest
  exact ⟨h.trans rfl, by rw [h]; rfl⟩

/-- C7: an invocation whose name carries no remote-origin marker has no
handler (the source has no local dispatch table beyond the empty
built-in list), so turn-processing records the fixed not-implemented
text for that name as the tool result, still appends both history
messages, and the session continues with the follow-up chat, whose text
answer is appended. -/
theorem claim_C7_unresolved_tool (agent : OllamaAgent) (fc : ToolCall)
    (msgs : List MessageType) (t : String) (rest : List ChatResult)
    (h : jsStartsWith fc.function.name "mcp_" = false) :
    processFunctionCall agent fc msgs (ChatResult.text t :: rest) =
      msgs ++
        [assistantInvMessage (mkCallId msgs.length) fc,
         toolResultMessage (mkCallId msgs.length) fc
           ("Función " ++ fc.function.name ++ " no implementada"),
         assistantTextMessage t] := by
  rw [processFunctionCall_text_eq, executeFunction, if_neg ?_]
  rw [h]
  exact Bool.false_ne_true

/-- C7 witness: the invocation named ghost on a two-entry history yields
the not-implemented tool result and the turn completes with the
follow-up answer. -/
theorem claim_C7_witness :
    processFunctionCall sampleAgentDisconnected fcGhost [sysMessage, userMessage]
        [ChatResult.text "done"] =
      [sysMessage, userMessage,
       assistantInvMessage "call_2" fcGhost,
       toolResultMessage "call_2" fcGhost "Función ghost no implementada",
       assistantTextMessage "done"] :=
  (claim_C7_unresolved_tool sampleAgentDisconnected fcGhost [sysMessage, userMessage]
    "done" [] (by decide)).trans rfl

/-- C10: with no cached remote catalog (degraded local-tools-only mode),
an invocation carrying the remote-origin marker does not abort the turn:
the not-connected error thrown by the agent remote executor is captured
inside the dispatch function and rendered as an error-describing result
string, which becomes the tool-role message content, and the
conversation continues with the follow-up chat. -/
theorem claim_C10_degraded_remote_dispatch (agent : OllamaAgent)
    (n id0 : String) (args : ArgsVal) (msgs : List MessageType) (t : String)
    (rest : List ChatResult) (h : agent.toolsMCP = none) :
    processFunctionCall agent ⟨id0, ⟨"mcp_" ++ n, args⟩⟩ msgs
        (ChatResult.text t :: rest) =
      msgs ++
        [assistantInvMessage (mkCallId msgs.length) ⟨id0, ⟨"mcp_" ++ n, args⟩⟩,
         toolResultMessage (mkCallId msgs.length) ⟨id0, ⟨"mcp_" ++ n, args⟩⟩
           ("Error ejecutando la herramienta MCP " ++ n ++
             (": Error: " ++ "MCP Client not connected or tools not available")),
         assistantTextMessage t] := by
  rw [processFunctionCall_text_eq]
  have hex : executeFunction agent ("mcp_" ++ n) (normalizeArguments agent args) =
      "Error ejecutando la herramienta MCP " ++ n ++
        (": Error: " ++ "MCP Client not connected or tools not available") := by
    rw [executeFunction, if_pos (jsStartsWith_mcp_append n), jsSubstringFrom_mcp_append]
    simp [OllamaAgent.executeMcpTool, h, String.append_assoc]
  rw [show (⟨id0, ⟨"mcp_" ++ n, args⟩⟩ : ToolCall).function.name = "mcp_" ++ n from rfl,
    show (⟨id0, ⟨"mcp_" ++ n, args⟩⟩ : ToolCall).function.arguments = args from rfl, hex]

/-- C10 witness: the invocation mcp_ghost against the degraded agent
yields the captured not-connected error text as tool result and the turn
still completes. -/
theorem claim_C10_witness :
    processFunctionCall sampleAgentDisconnected ⟨"id1", ⟨"mcp_" ++ "ghost", ArgsVal.obj []⟩⟩
        [sysMessage, userMessage] [ChatResult.text "done"] =
      [sysMessage, userMessage,
       assistantInvMessage "call_2" ⟨"id1", ⟨"mcp_ghost", ArgsVal.obj []⟩⟩,
       toolResultMessage "call_2" ⟨"id1", ⟨"mcp_ghost", ArgsVal.obj []⟩⟩
         "Error ejecutando la herramienta MCP ghost: Error: MCP Client not connected or tools not available",
       assistantTextMessage "done"] :=
  (claim_C10_degraded_remote_dispatch sampleAgentDisconnected "ghost" "id1"
    (ArgsVal.obj []) [sysMessage, userMessage] "done" [] rfl).trans rfl

/-- C9 counterexample: when the recursive re-query inside turn-processing
returns the empty text result, the source still appends a final
assistant message (with empty content): starting from the two-entry
history the run ends with five messages, the last being an assistant
message whose content is the empty string — refuting the claim that no
assistant message is appended in that case. -/
theorem claim_C9_counterexample :
    (processFunctionCall sampleAgentDisconnected fcGhost [sysMessage, userMessage]
        [ChatResult.text ""]).getLast? = some (assistantTextMessage "") ∧
    (processFunctionCall sampleAgentDisconnected fcGhost [sysMessage, userMessage]
        [ChatResult.text ""]).length = 5 := ⟨rfl, rfl⟩

/-- C9 amended: at the top level of the interactive loop an empty text
result is treated as no response obtained and no assistant message is
appended; but when the empty text result arises from the recursive
re-query inside turn-processing, it is treated as an ordinary final
answer and appended as an assistant message with empty content. -/
theorem claim_C9_amended :
    (∀ (agent : OllamaAgent) (msgs : List MessageType) (u : String)
        (oracle : List ChatResult),
        interactiveTurnStep agent msgs u (ChatResult.text "") oracle =
          (msgs ++ [{ role := MessageRole.user
                      content := some u
                      tool_calls := none
                      tool_call_id := none
                      name := none }], TurnOutcome.noResponse)) ∧
    (∀ (agent : OllamaAgent) (fc : ToolCall) (msgs : List MessageType)
        (rest : List ChatResult),
        processFunctionCall agent fc msgs (ChatResult.text "" :: rest) =
          msgs ++
            [assistantInvMessage (mkCallId msgs.length) fc,
             toolResultMessage (mkCallId msgs.length) fc
               (executeFunction agent fc.function.name
                 (normalizeArguments agent fc.function.arguments)),
             assistantTextMessage ""]) := by
  refine ⟨fun agent msgs u oracle => ?_, fun agent fc msgs rest =>
    processFunctionCall_text_eq agent fc msgs "" rest⟩
  rw [interactiveTurnStep]
  rfl

/-- C6: a failure of the MCP handshake makes connect return false with
the gateway rolled back to the disconnected state (both nullable fields
cleared, assuming closing the freshly built client does not itself
throw), and setup then continues the session with no cached remote
catalog instead of aborting. -/
theorem claim_C6_connect_failure_degrades (env : GatewayEnv) (e : String)
    (hc : env.connectOp = Except.error e) (hcl : env.closeOp = Except.ok ()) :
    MCPClient.connect env disconnectedState = (false, disconnectedState) ∧
    (env.ollamaOk = true → setup env = SetupResult.ready none disconnectedState) := by
  have h1 : MCPClient.connect env disconnectedState = (false, disconnectedState) := by
    rw [MCPClient.connect, hc, MCPClient.disconnect]
    simp [hcl, disconnectedState]
  refine ⟨h1, fun ho => ?_⟩
  simp [setup, ho, h1]

/-- C6 witness: in the sample environment whose handshake throws, connect
reports failure from the disconnected state and setup degrades to local
tools only. -/
theorem claim_C6_witness :
    MCPClient.connect sampleEnvConnectFail disconnectedState = (false, disconnectedState) ∧
    setup sampleEnvConnectFail = SetupResult.ready none disconnectedState := by
  obtain ⟨h1, h2⟩ := claim_C6_connect_failure_degrades sampleEnvConnectFail
    "spawn failed" rfl rfl
  exact ⟨h1, h2 rfl⟩

/-- Accumulator property of the core digit renderer. -/
theorem toDigitsCore_acc (b : Nat) :
    ∀ (f n : Nat) (ds : List Char),
      Nat.toDigitsCore b f n ds = Nat.toDigitsCore b f n [] ++ ds := by
  intro f
  induction f with
  | zero => intro n ds; rfl
  | succ f ih =>
    intro n ds
    rw [Nat.toDigitsCore, Nat.toDigitsCore]
    by_cases h : n / b = 0
    · rw [if_pos h, if_pos h]
      rfl
    · rw [if_neg h, if_neg h, ih (n / b) [Nat.digitChar (n % b)],
        ih (n / b) (Nat.digitChar (n % b) :: ds), List.append_assoc]
      rfl

/-- With sufficient fuel the core digit renderer computes decDigits. -/
theorem toDigitsCore_eq_decDigits :
    ∀ (f n : Nat), n < f → Nat.toDigitsCore 10 f n [] = decDigits n := by
  intro f
  induction f with
  | zero => intro n h; omega
  | succ f ih =>
    intro n h
    rw [Nat.toDigitsCore, decDigits]
    by_cases h0 : n / 10 = 0
    · have hn : n < 10 := by omega
      rw [if_pos h0, dif_pos hn, Nat.mod_eq_of_lt hn]
    · have hn : ¬ n < 10 := by omega
      have hdf : n / 10 < f := by
        have h1 : n / 10 < n := Nat.div_lt_self (by omega) (by omega)
        omega
      rw [if_neg h0, dif_neg hn, toDigitsCore_acc, ih (n / 10) hdf]

/-- The digits of Nat.toDigits in base ten are the reference digits. -/
theorem toDigits_eq_decDigits (n : Nat) :
    Nat.toDigits 10 n = decDigits n :=
  toDigitsCore_eq_decDigits (n + 1) n (Nat.lt_succ_self n)

/-- Decoding of one digit character. -/
theorem digitChar_decode (m : Nat) (h : m < 10) :
    (Nat.digitChar m).toNat - 48 = m := by
  interval_cases m <;> rfl

/-- decValue is a left inverse of decDigits. -/
theorem decValue_decDigits (n : Nat) : decValue (decDigits n) = n := by
  induction n using Nat.strong_induction_on with
  | _ n ih =>
    rw [decDigits]
    by_cases h : n < 10
    · rw [dif_pos h]
      show 0 * 10 + ((Nat.digitChar n).toNat - 48) = n
      rw [digitChar_decode n h]
      omega
    · rw [dif_neg h, decValue, List.foldl_append]
      have hrec := ih (n / 10) (Nat.div_lt_self (by omega) (by omega))
      rw [decValue] at hrec
      rw [hrec]
      show n / 10 * 10 + ((Nat.digitChar (n % 10)).toNat - 48) = n
      rw [digitChar_decode (n % 10) (Nat.mod_lt n (by omega))]
      omega

/-- The decimal rendering of Nat.repr is injective. -/
theorem nat_repr_injective (m n : Nat) (h : Nat.repr m = Nat.repr n) :
    m = n := by
  have h2 : Nat.toDigits 10 m = Nat.toDigits 10 n := congrArg String.data h
  rw [toDigits_eq_decDigits, toDigits_eq_decDigits] at h2
  have := congrArg decValue h2
  rwa [decValue_decDigits, decValue_decDigits] at this

/-- Synthesized correlation ids coming from different history lengths
are different strings. -/
theorem mkCallId_injective (a b : Nat) (h : mkCallId a = mkCallId b) :
    a = b := by
  apply nat_repr_injective
  have hd := congrArg String.data h
  rw [mkCallId, mkCallId, String.data_append, String.data_append] at hd
  exact String.ext (List.append_cancel_left hd)

/-- toolIds distributes over history concatenation. -/
theorem toolIds_append (l1 l2 : List MessageType) :
    toolIds (l1 ++ l2) = toolIds l1 ++ toolIds l2 :=
  List.filterMap_append l1 l2 _

/-- The two messages appended per invocation carry exactly the one
synthesized id. -/
theorem toolIds_pair (cid : String) (fc : ToolCall) (r : String) :
    toolIds [assistantInvMessage cid fc, toolResultMessage cid fc r] = [cid] := rfl

/-- The three messages appended on a final text answer carry exactly the
one synthesized id. -/
theorem toolIds_triple (cid : String) (fc : ToolCall) (r s : String) :
    toolIds [assistantInvMessage cid fc, toolResultMessage cid fc r,
      assistantTextMessage s] = [cid] := rfl

/-- Characterization of the ids generated by one turn-processing run:
they are exactly the renderings of the history lengths at the successive
synthesis points. -/
theorem processFunctionCall_toolIds (agent : OllamaAgent) :
    ∀ (oracle : List ChatResult) (fc : ToolCall) (msgs : List MessageType),
      toolIds (processFunctionCall agent fc msgs oracle) =
        toolIds msgs ++ (genNums msgs.length oracle).map mkCallId := by
  intro oracle
  induction oracle with
  | nil =>
    intro fc msgs
    rw [processFunctionCall_nil_eq, toolIds_append, toolIds_pair, genNums]
    rfl
  | cons r rest ih =>
    intro fc msgs
    cases r with
    | text s =>
      rw [processFunctionCall_text_eq, toolIds_append, toolIds_triple, genNums]
      rfl
    | functionCall fc2 =>
      rw [processFunctionCall_fnCall_eq, ih, toolIds_append, toolIds_pair,
        List.length_append, genNums]
      show toolIds msgs ++ [mkCallId msgs.length] ++
          (genNums (msgs.length + 2) rest).map mkCallId =
        toolIds msgs ++ (mkCallId msgs.length ::
          (genNums (msgs.length + 2) rest).map mkCallId)
      rw [List.append_assoc]
      rfl

/-- Every history length recorded by genNums is at least the starting
length. -/
theorem genNums_le :
    ∀ (oracle : List ChatResult) (L k : Nat), k ∈ genNums L oracle → L ≤ k := by
  intro oracle
  induction oracle with
  | nil =>
    intro L k hk
    rw [genNums, List.mem_singleton] at hk
    omega
  | cons r rest ih =>
    intro L k hk
    cases r with
    | text s =>
      rw [genNums, List.mem_singleton] at hk
      omega
    | functionCall fc =>
      rw [genNums, List.mem_cons] at hk
      cases hk with
      | inl h => omega
      | inr h =>
        have := ih (L + 2) k h
        omega

/-- The history lengths recorded by genNums are strictly increasing. -/
theorem genNums_pairwise :
    ∀ (oracle : List ChatResult) (L : Nat),
      (genNums L oracle).Pairwise (· < ·) := by
  intro oracle
  induction oracle with
  | nil => intro L; rw [genNums]; exact List.pairwise_singleton _ _
  | cons r rest ih =>
    intro L
    cases r with
    | text s => rw [genNums]; exact List.pairwise_singleton _ _
    | functionCall fc =>
      rw [genNums]
      refine List.Pairwise.cons (fun k hk => ?_) (ih (L + 2))
      have := genNums_le rest (L + 2) k hk
      omega

/-- C8: every correlation id synthesized by the turn-processing run is
derived deterministically from the history length at the moment of its
synthesis (genNums records those lengths: the first id is made at the
starting length, and each recursion step appends two messages before the
next synthesis), the synthesis lengths are monotonically increasing, and
the generated id strings are pairwise distinct. -/
theorem claim_C8_correlation_ids (agent : OllamaAgent) (fc : ToolCall)
    (msgs : List MessageType) (oracle : List ChatResult) :
    toolIds (processFunctionCall agent fc msgs oracle) =
      toolIds msgs ++ (genNums msgs.length oracle).map mkCallId ∧
    (genNums msgs.length oracle).Pairwise (· < ·) ∧
    ((genNums msgs.length oracle).map mkCallId).Pairwise (· ≠ ·) := by
  refine ⟨processFunctionCall_toolIds agent oracle fc msgs,
    genNums_pairwise oracle msgs.length, ?_⟩
  refine List.Pairwise.map mkCallId (fun a b hab heq => ?_)
    (genNums_pairwise oracle msgs.length)
  exact absurd (mkCallId_injective a b heq) (Nat.ne_of_lt hab)

/-- The range-based pairing invariant holds exactly when every index
passes the local check (indices past the end pass vacuously). -/
theorem toolPairingInv_iff (msgs : List MessageType) :
    toolPairingInv msgs = true ↔ ∀ i, msgOK msgs i = true := by
  rw [toolPairingInv, List.all_eq_true]
  constructor
  · intro h i
    by_cases hi : i < msgs.length
    · exact h i (List.mem_range.mpr hi)
    · rw [msgOK, List.getElem?_eq_none (Nat.le_of_not_lt hi)]
  · intro h i _
    exact h i

/-- Appending messages at the end preserves the local pairing check at
every index strictly inside the old history. -/
theorem msgOK_append_lt (msgs l2 : List MessageType) (i : Nat)
    (hi : i < msgs.length) (hOK : msgOK msgs i = true) :
    msgOK (msgs ++ l2) i = true := by
  rw [msgOK, List.getElem?_append_left hi]
  rw [msgOK] at hOK
  cases hm : msgs[i]? with
  | none => rfl
  | some m =>
    rw [hm] at hOK
    rw [Bool.and_eq_true] at hOK
    obtain ⟨h1, h2⟩ := hOK
    rw [Bool.and_eq_true]
    constructor
    · by_cases hrole : (m.role == MessageRole.tool) = true
      · rw [if_pos hrole] at h1 ⊢
        rw [Bool.and_eq_true] at h1
        obtain ⟨h1a, h1b⟩ := h1
        rw [Bool.and_eq_true]
        refine ⟨h1a, ?_⟩
        have hi1 : i - 1 < msgs.length := by omega
        rw [List.getElem?_append_left hi1]
        exact h1b
      · rw [if_neg hrole]
    · cases htc : m.tool_calls with
      | none => rfl
      | some tcs =>
        rw [htc] at h2
        rw [Bool.and_eq_true] at h2
        obtain ⟨h2a, h2b⟩ := h2
        cases hnext : msgs[i+1]? with
        | none =>
          rw [hnext] at h2b
          exact absurd h2b (by simp)
        | some t =>
          have hi1 : i + 1 < msgs.length := by
            rcases List.getElem?_eq_some_iff.mp hnext with ⟨hlt, _⟩
            exact hlt
          rw [hnext] at h2b
          rw [Bool.and_eq_true]
          refine ⟨h2a, ?_⟩
          rw [List.getElem?_append_left hi1, hnext]
          exact h2b

/-- Appending one invocation-and-result message pair preserves the local
pairing check everywhere. -/
theorem msgOK_append_pair (msgs : List MessageType) (cid : String) (fc : ToolCall)
    (r : String) (h : ∀ i, msgOK msgs i = true) (i : Nat) :
    msgOK (msgs ++ [assistantInvMessage cid fc, toolResultMessage cid fc r]) i = true := by
  rcases Nat.lt_trichotomy i msgs.length with hi | hi | hi
  · exact msgOK_append_lt msgs _ i hi (h i)
  · have e0 : (msgs ++ [assistantInvMessage cid fc, toolResultMessage cid fc r])[i]? =
        some (assistantInvMessage cid fc) := by
      rw [hi, List.getElem?_append_right (Nat.le_refl _), Nat.sub_self]
      rfl
    have e1 : (msgs ++ [assistantInvMessage cid fc, toolResultMessage cid fc r])[i+1]? =
        some (toolResultMessage cid fc r) := by
      rw [hi, List.getElem?_append_right (by omega)]
      have hs : msgs.length + 1 - msgs.length = 1 := by omega
      rw [hs]
      rfl
    rw [msgOK, e0, e1]
    simp [assistantInvMessage, toolResultMessage, isPairLink]
    exact ⟨Or.inl rfl, rfl, rfl⟩
  · rcases Nat.lt_or_ge i (msgs.length + 2) with hlt | hge
    · have hi1 : i = msgs.length + 1 := by omega
      have e0 : (msgs ++ [assistantInvMessage cid fc, toolResultMessage cid fc r])[i]? =
          some (toolResultMessage cid fc r) := by
        rw [hi1, List.getElem?_append_right (by omega)]
        have hs : msgs.length + 1 - msgs.length = 1 := by omega
        rw [hs]
        rfl
      have e1 : (msgs ++ [assistantInvMessage cid fc, toolResultMessage cid fc r])[i-1]? =
          some (assistantInvMessage cid fc) := by
        rw [hi1]
        have hs : msgs.length + 1 - 1 = msgs.length := by omega
        rw [hs, List.getElem?_append_right (Nat.le_refl _), Nat.sub_self]
        rfl
      rw [msgOK, e0, e1]
      simp [assistantInvMessage, toolResultMessage, isPairLink, hi1]
      exact Or.inr rfl
    · rw [msgOK, List.getElem?_eq_none (by simp; omega)]

/-- Appending a plain assistant text message preserves the local pairing
check everywhere. -/
theorem msgOK_append_text (msgs : List MessageType) (s : String)
    (h : ∀ i, msgOK msgs i = true) (i : Nat) :
    msgOK (msgs ++ [assistantTextMessage s]) i = true := by
  rcases Nat.lt_trichotomy i msgs.length with hi | hi | hi
  · exact msgOK_append_lt msgs _ i hi (h i)
  · have e0 : (msgs ++ [assistantTextMessage s])[i]? = some (assistantTextMessage s) := by
      rw [hi, List.getElem?_append_right (Nat.le_refl _), Nat.sub_self]
      rfl
    rw [msgOK, e0]
    simp [assistantTextMessage]
    exact Or.inl rfl
  · rw [msgOK, List.getElem?_eq_none (by simp; omega)]

/-- Turn-processing preserves the pairing invariant. -/
theorem processFunctionCall_pairing (agent : OllamaAgent) :
    ∀ (oracle : List ChatResult) (fc : ToolCall) (msgs : List MessageType),
      (∀ i, msgOK msgs i = true) →
      ∀ i, msgOK (processFunctionCall agent fc msgs oracle) i = true := by
  intro oracle
  induction oracle with
  | nil =>
    intro fc msgs h i
    rw [processFunctionCall_nil_eq]
    exact msgOK_append_pair msgs _ fc _ h i
  | cons r rest ih =>
    intro fc msgs h
    cases r with
    | functionCall fc2 =>
      rw [processFunctionCall_fnCall_eq]
      exact ih fc2 _ (msgOK_append_pair msgs _ fc _ h)
    | text s =>
      intro i
      rw [processFunctionCall_text_eq]
      have hstep := msgOK_append_text
        (msgs ++ [assistantInvMessage (mkCallId msgs.length) fc,
          toolResultMessage (mkCallId msgs.length) fc
            (executeFunction agent fc.function.name
              (normalizeArguments agent fc.function.arguments))])
        s (msgOK_append_pair msgs _ fc _ h) i
      rw [List.append_assoc] at hstep
      exact hstep

/-- C1: for every conversation history built solely by the
turn-processing algorithm from an initial system-then-user history,
every tool-role message carries a tool_call_id that matches an
invocation id of the immediately preceding assistant message, and the
pairing is one to one: each assistant invocation message carries exactly
one invocation and is immediately followed by exactly the one tool-role
message answering it. -/
theorem claim_C1_tool_pairing (c0 c1 : Option String) (agent : OllamaAgent)
    (fc : ToolCall) (oracle : List ChatResult) :
    toolPairingInv (processFunctionCall agent fc
      [{ role := MessageRole.system, content := c0, tool_calls := none,
         tool_call_id := none, name := none },
       { role := MessageRole.user, content := c1, tool_calls := none,
         tool_call_id := none, name := none }] oracle) = true := by
  rw [toolPairingInv_iff]
  apply processFunctionCall_pairing
  intro i
  match i with
  | 0 => rfl
  | 1 => rfl
  | (n+2) =>
    rw [msgOK, List.getElem?_eq_none (by simp)]
